import Mathlib

/-!
Shallow embedding of `src/lib/github.ts` (github-wrapped): a one-shot
GitHub statistics aggregator with an in-memory TTL cache, a global
fixed-interval rate limiter, a paginated repository lister and a report
assembler.

Modelling conventions:
* Wall-clock time is a natural number of milliseconds.  `setTimeout`
  sleeping is modelled as advancing the clock to the wake-up instant;
  remote calls take zero model time.
* The remote API is an `Env` oracle: the REST identity endpoint
  (`octokit.users.getAuthenticated`), the combined GraphQL
  contributions query, and the pages served by the paginated listing
  query.  Fallible calls return `Except String`.  The oracle is
  deterministic: repeated calls observe the same answer.
* JavaScript numbers used as counts are `Nat`; the floating-point
  language percentage `(count / total) * 100` is modelled in `ℚ`
  (note: in Lean, division by zero yields zero where JavaScript
  produces `NaN`).
* The LRU cache is modelled as its observable key → (value, insertion
  instant) map; an entry is fresh while `now - inserted ≤ ttl`,
  matching lru-cache's staleness test `now - start > ttl`.  Capacity
  eviction (max 100) and recency bookkeeping are internal to the
  library and not observable through the `get`/`set` calls the source
  makes in a single run, so they are not part of the state.
* Remote traffic is observable through `CallCounts`, the number of
  identity resolutions, contributions queries and listing pages
  fetched during one invocation.
-/

namespace GW

/-- Result of `octokit.users.getAuthenticated()`: the authenticated
identity's login and avatar URL. -/
structure AuthUser where
  login : String
  avatar_url : String
deriving DecidableEq, Repr

/-- One day of the contribution calendar (fields as requested by the
GraphQL query: `contributionCount`, `date`, `weekday`).  The `date` is
an abstract day number; the source's
`new Date(day.date).toLocaleDateString("en-US", \x7bweekday: "long"\x7d)`
is modelled by `weekdayName`.  The fetched `weekday` field is never
read by the source. -/
structure CalDay where
  contributionCount : Nat
  date : Nat
  weekday : Nat
deriving DecidableEq, Repr

/-- One week of the contribution calendar. -/
structure CalWeek where
  contributionDays : List CalDay
deriving DecidableEq, Repr

/-- The contributions data returned by the combined GraphQL query
(`user.contributionsCollection`).  `totalPullRequestContributions`,
`commitContributionsByRepository`, `contributionCalendar.totalContributions`
and the capped 100-repository listing included in the same query are
fetched by the source but never read afterwards; the unread nested
record lists are omitted here. -/
structure ContribData where
  totalCommitContributions : Nat
  totalIssueContributions : Nat
  totalPullRequestContributions : Nat
  totalPullRequestReviewContributions : Nat
  weeks : List CalWeek
deriving DecidableEq, Repr

/-- One repository node of the paginated listing query
(`getRepositories`): `nameWithOwner`, `isPrivate`, `url`,
`description`, `primaryLanguage.name`, `stargazerCount`, and
`defaultBranchRef.target.history.totalCount` (absent when the
repository has no default branch or its target carries no commit
history). -/
structure RepoNode where
  nameWithOwner : String
  isPrivate : Bool
  url : String
  description : Option String
  primaryLanguage : Option String
  stargazerCount : Nat
  defaultBranchHistory : Option Nat
deriving DecidableEq, Repr

/-- The `RepoStats` record of the source. -/
structure RepoStats where
  name : String
  commits : Nat
  stars : Nat
  url : String
  description : Option String
  language : Option String
  contributions : Nat
  isPrivate : Bool
deriving DecidableEq, Repr

/-- One weekday bucket of `contributionsByDay`. -/
structure DayCount where
  day : String
  count : Nat
deriving DecidableEq, Repr

/-- One entry of `contributionsByType`. -/
structure TypeCount where
  type : String
  count : Nat
deriving DecidableEq, Repr

/-- One entry of `languages`: a language name with its percentage of
the summed per-language commit totals. -/
structure LanguageShare where
  name : String
  percentage : ℚ
deriving DecidableEq, Repr

/-- The `user` field of the result. -/
structure UserInfo where
  login : String
  avatarUrl : String
deriving DecidableEq, Repr

/-- The aggregated report returned by `getGitHubStats` (the source's
`result` object literal, field for field). -/
structure Report where
  repos : List RepoStats
  totalCommits : Nat
  totalComments : Nat
  totalReviews : Nat
  totalRepos : Nat
  activeDays : Nat
  contributionsByDay : List DayCount
  contributionsByType : List TypeCount
  languages : List LanguageShare
  user : UserInfo
deriving DecidableEq, Repr

/-- The remote API oracle: the REST identity endpoint, the combined
GraphQL contributions query (scoped by login), and the successive
pages served by the paginated listing query (scoped by login; one list
element per page fetch, in the order the cursor chain yields them). -/
structure Env where
  getAuthenticated : Except String AuthUser
  contribQuery : String → Except String ContribData
  listPages : String → List (Except String (List RepoNode))

/-- Remote calls observed during one invocation: identity resolutions,
contributions queries, and listing-page fetches. -/
structure CallCounts where
  identity : Nat
  contributions : Nat
  pages : Nat
deriving DecidableEq, Repr

/-- Zero remote calls. -/
def noCalls : CallCounts := ⟨0, 0, 0⟩

/-- Cache time-to-live: `1000 * 60 * 5` milliseconds. -/
def cacheTTL : Nat := 1000 * 60 * 5

/-- Rate limiter minimum interval: 1000 milliseconds. -/
def minInterval : Nat := 1000

/-- Mutable process state: the cache's observable contents (key,
report, insertion instant) and the rate limiter's `lastCall`
timestamp. -/
structure GState where
  cache : List (String × Report × Nat)
  lastCall : Nat

/-- The source's cache key: `stats-` followed by the raw token. -/
def cacheKey (accessToken : String) : String := "stats-" ++ accessToken

/-- `cache.get(key)` at instant `now`: the stored report if the entry
exists and is still fresh (`now - inserted ≤ cacheTTL`). -/
def cacheGet (c : List (String × Report × Nat)) (k : String) (now : Nat) : Option Report :=
  match c.find? (fun e => e.1 == k) with
  | some e => if now - e.2.2 ≤ cacheTTL then some e.2.1 else none
  | none => none

/-- `cache.set(key, value)` at instant `now`. -/
def cacheSet (c : List (String × Report × Nat)) (k : String) (rep : Report) (now : Nat) :
    List (String × Report × Nat) :=
  (k, rep, now) :: c.filter (fun e => e.1 != k)

/-- The instant at which `rateLimit()` invoked at `now` with stored
timestamp `lastCall` resumes: if less than `minInterval` has elapsed
it sleeps for the remainder, otherwise it returns at once. -/
def rateLimitWake (now lastCall : Nat) : Nat :=
  if now - lastCall < minInterval then now + (minInterval - (now - lastCall)) else now

/-- `rateLimit()`: returns the resumption instant and the new value of
the shared `lastCall` timestamp, which is unconditionally set to the
resumption instant (`rateLimiter.lastCall = Date.now()` after the
optional sleep). -/
def rateLimit (now lastCall : Nat) : Nat × Nat :=
  (rateLimitWake now lastCall, rateLimitWake now lastCall)

/-- The seven weekday names, in the source's fixed `daysOrder`. -/
def daysOrder : List String :=
  ["Monday", "Tuesday", "Wednesday", "Thursday", "Friday", "Saturday", "Sunday"]

/-- Model of `new Date(day.date).toLocaleDateString("en-US",
\x7bweekday: "long"\x7d)`: every valid date maps to one of the seven
English weekday names; the alignment of day numbers to names is
immaterial to the aggregation. -/
def weekdayName (d : Nat) : String := daysOrder.getD (d % 7) "Monday"

/-- One step of the `dailyContributions` accumulation: a day with a
positive count adds its count to its weekday's bucket; other days are
skipped. -/
def addDay (m : String → Nat) (d : CalDay) : String → Nat :=
  if 0 < d.contributionCount then
    Function.update m (weekdayName d.date) (m (weekdayName d.date) + d.contributionCount)
  else m

/-- The `dailyContributions` record as a total lookup (absent keys
read 0, matching `dailyContributions[day] || 0`). -/
def dailyContributions (days : List CalDay) : String → Nat :=
  days.foldl addDay (fun _ => 0)

/-- All calendar days, weeks flattened in order. -/
def calendarDays (cd : ContribData) : List CalDay :=
  (cd.weeks.map (fun w => w.contributionDays)).flatten

/-- `activeDaysSet.size`: the number of distinct dates having a
positive contribution count. -/
def activeDayCount (days : List CalDay) : Nat :=
  (((days.filter (fun d => 0 < d.contributionCount)).map (fun d => d.date)).dedup).length

/-- The source's `repoStats` transformation of one listed repository.
`commits` and `contributions` are both
`defaultBranchRef?.target?.history?.totalCount || 0`; `language` is
`primaryLanguage?.name || null` (an empty-string name is falsy and
becomes null). -/
def mkRepoStats (r : RepoNode) : RepoStats :=
  { name := r.nameWithOwner
    commits := r.defaultBranchHistory.getD 0
    stars := r.stargazerCount
    url := r.url
    description := r.description
    language := match r.primaryLanguage with
      | some s => if s = "" then none else some s
      | none => none
    contributions := r.defaultBranchHistory.getD 0
    isPrivate := r.isPrivate }

/-- Upsert into the `languageStats` record, preserving first-seen key
order (JavaScript object insertion order). -/
def bumpLang (stats : List (String × Nat)) (language : String) (c : Nat) :
    List (String × Nat) :=
  match stats with
  | [] => [(language, c)]
  | (n, k) :: rest =>
    if n = language then (n, k + c) :: rest else (n, k) :: bumpLang rest language c

/-- The `languageStats` record: per detected primary language, the sum
of `commits` over the repositories having that language. -/
def languageStats (repos : List RepoStats) : List (String × Nat) :=
  repos.foldl
    (fun st r => match r.language with
      | some l => bumpLang st l r.commits
      | none => st)
    []

/-- `totalLanguageCommits`: the sum of the record's values. -/
def totalLanguageCommits (stats : List (String × Nat)) : Nat :=
  (stats.map (fun e => e.2)).sum

/-- Stable insertion into a list sorted by strictly descending key:
the new element passes only elements with strictly greater key, so
ties keep their original relative order (JavaScript's stable
`Array.prototype.sort`). -/
def insertDescBy {α β : Type} [LinearOrder β] (key : α → β) (x : α) : List α → List α
  | [] => [x]
  | y :: ys => if key x < key y then y :: insertDescBy key x ys else x :: y :: ys

/-- Stable sort by descending key (models `sort((a, b) => bKey - aKey)`). -/
def sortDescBy {α β : Type} [LinearOrder β] (key : α → β) : List α → List α
  | [] => []
  | x :: xs => insertDescBy key x (sortDescBy key xs)

/-- The `languages` list: each recorded language with
`(count / totalLanguageCommits) * 100`, sorted by descending
percentage. -/
def mkLanguages (stats : List (String × Nat)) : List LanguageShare :=
  sortDescBy (fun l => l.percentage)
    (stats.map (fun e =>
      { name := e.1
        percentage := (e.2 : ℚ) / (totalLanguageCommits stats : ℚ) * 100 }))

/-- `getAllRepositories`: follow the cursor chain, accumulating every
page's nodes in order; the first failing page fetch aborts the whole
listing with that error. -/
def getAllRepositories : List (Except String (List RepoNode)) → Except String (List RepoNode)
  | [] => Except.ok []
  | Except.error e :: _ => Except.error e
  | Except.ok nodes :: rest =>
    match getAllRepositories rest with
    | Except.ok more => Except.ok (nodes ++ more)
    | Except.error e => Except.error e

/-- The number of page fetches the pagination loop performs on the
given page sequence (it stops after the first failing fetch). -/
def pagesFetched : List (Except String (List RepoNode)) → Nat
  | [] => 0
  | Except.error _ :: _ => 1
  | Except.ok _ :: rest => 1 + pagesFetched rest

/-- The source's `result` object, assembled from the contributions
data, the fully listed repositories and the identity echoed into
`user`. -/
def assembleReport (cd : ContribData) (nodes : List RepoNode) (u : UserInfo) : Report :=
  let repoStats := nodes.map mkRepoStats
  let days := calendarDays cd
  let daily := dailyContributions days
  { repos := sortDescBy (fun r => r.commits) repoStats
    totalCommits := cd.totalCommitContributions
    totalComments := cd.totalIssueContributions
    totalReviews := cd.totalPullRequestReviewContributions
    totalRepos := repoStats.length
    activeDays := activeDayCount days
    contributionsByDay := daysOrder.map (fun d => { day := d, count := daily d })
    contributionsByType :=
      [ { type := "Commits", count := cd.totalCommitContributions }
      , { type := "Comments", count := cd.totalIssueContributions }
      , { type := "Reviews", count := cd.totalPullRequestReviewContributions } ]
    languages := mkLanguages (languageStats repoStats)
    user := u }

/-- `getGitHubStats(accessToken)` invoked at instant `now` in state
`st`: returns the outcome, the new state, the remote calls performed
during this invocation, and the instant at which the call completes
its remote phase (the rate limiter's wake-up instant on a miss).

Control flow mirrors the source: missing/empty token check; cache
probe; rate limit; identity resolution (line 123); combined
contributions query; second identity resolution (line 212); full
pagination; third and fourth identity resolutions inside the result
literal (lines 277 and 278); cache store.  Any remote failure is
re-thrown by the `catch` block unchanged, after the cache was left
untouched. -/
def getGitHubStats (env : Env) (accessToken : Option String) (now : Nat) (st : GState) :
    Except String Report × GState × CallCounts × Nat :=
  match accessToken with
  | none => (Except.error "No access token provided", st, noCalls, now)
  | some tok =>
    if tok = "" then (Except.error "No access token provided", st, noCalls, now)
    else
      match cacheGet st.cache (cacheKey tok) now with
      | some rep => (Except.ok rep, st, noCalls, now)
      | none =>
        let wake := (rateLimit now st.lastCall).1
        let st1 : GState := { cache := st.cache, lastCall := (rateLimit now st.lastCall).2 }
        match env.getAuthenticated with
        | Except.error e => (Except.error e, st1, ⟨1, 0, 0⟩, wake)
        | Except.ok u1 =>
          match env.contribQuery u1.login with
          | Except.error e => (Except.error e, st1, ⟨1, 1, 0⟩, wake)
          | Except.ok cd =>
            match env.getAuthenticated with
            | Except.error e => (Except.error e, st1, ⟨2, 1, 0⟩, wake)
            | Except.ok u2 =>
              match getAllRepositories (env.listPages u2.login) with
              | Except.error e =>
                (Except.error e, st1, ⟨2, 1, pagesFetched (env.listPages u2.login)⟩, wake)
              | Except.ok nodes =>
                match env.getAuthenticated, env.getAuthenticated with
                | Except.error e, _ =>
                  (Except.error e, st1, ⟨3, 1, pagesFetched (env.listPages u2.login)⟩, wake)
                | Except.ok _, Except.error e =>
                  (Except.error e, st1, ⟨4, 1, pagesFetched (env.listPages u2.login)⟩, wake)
                | Except.ok u3, Except.ok u4 =>
                  let result := assembleReport cd nodes ⟨u3.login, u4.avatar_url⟩
                  (Except.ok result,
                   { cache := cacheSet st.cache (cacheKey tok) result wake
                     lastCall := (rateLimit now st.lastCall).2 },
                   ⟨4, 1, pagesFetched (env.listPages u2.login)⟩,
                   wake)

/-! ### Concrete fixtures -/

/-- A concrete authenticated identity. -/
def sampleUser : AuthUser := ⟨"alice", "a.png"⟩

/-- A repository with a detected language and five commits on its
default branch. -/
def repoGo : RepoNode := ⟨"alice/go", false, "u1", some "d", some "Go", 7, some 5⟩

/-- An empty repository: no default branch history, no detected
language. -/
def repoNone : RepoNode := ⟨"alice/empty", false, "u2", none, none, 0, none⟩

/-- A private repository with a detected language and three commits. -/
def repoPriv : RepoNode := ⟨"alice/secret", true, "u3", some "s", some "Go", 1, some 3⟩

/-- A repository with a detected language but no default-branch
history (zero commits). -/
def repoLangOnly : RepoNode := ⟨"alice/onlylang", false, "u4", none, some "Go", 0, none⟩

/-- Concrete contributions data: totals 2/3/9/4 and a two-week
calendar whose positive days fall on dates 3 and 10. -/
def sampleContrib : ContribData :=
  ⟨2, 3, 9, 4, [⟨[⟨5, 3, 0⟩, ⟨0, 4, 0⟩]⟩, ⟨[⟨2, 10, 0⟩]⟩]⟩

/-- Contributions data with zero totals and an empty calendar. -/
def emptyContrib : ContribData := ⟨0, 0, 0, 0, []⟩

/-- A fully successful remote API serving two listing pages (three
repositories, one of them private). -/
def sampleEnv : Env :=
  { getAuthenticated := Except.ok sampleUser
    contribQuery := fun _ => Except.ok sampleContrib
    listPages := fun _ => [Except.ok [repoGo, repoNone], Except.ok [repoPriv]] }

/-- The listing result of `sampleEnv`, fully paginated. -/
def sampleNodes : List RepoNode := [repoGo, repoNone, repoPriv]

/-- A remote API whose single listed repository has a detected
language but zero commits. -/
def zeroCommitEnv : Env :=
  { getAuthenticated := Except.ok sampleUser
    contribQuery := fun _ => Except.ok emptyContrib
    listPages := fun _ => [Except.ok [repoLangOnly]] }

/-- A remote API whose identity resolution fails. -/
def failEnv : Env :=
  { getAuthenticated := Except.error "boom"
    contribQuery := fun _ => Except.error "boom"
    listPages := fun _ => [] }

/-- The initial process state: empty cache, rate limiter never
triggered. -/
def st0 : GState := ⟨[], 0⟩

/-! ### Shape lemmas for one invocation -/

/-- A cache-miss invocation on which every remote call succeeds:
outcome, state, traffic and completion instant, explicitly. -/
lemma getGitHubStats_ok (env : Env) (st : GState) (tok : String) (now : Nat)
    (u : AuthUser) (cd : ContribData) (nodes : List RepoNode)
    (htok : tok ≠ "")
    (hmiss : cacheGet st.cache (cacheKey tok) now = none)
    (hA : env.getAuthenticated = Except.ok u)
    (hC : env.contribQuery u.login = Except.ok cd)
    (hL : getAllRepositories (env.listPages u.login) = Except.ok nodes) :
    getGitHubStats env (some tok) now st =
      (Except.ok (assembleReport cd nodes ⟨u.login, u.avatar_url⟩),
       { cache := cacheSet st.cache (cacheKey tok)
           (assembleReport cd nodes ⟨u.login, u.avatar_url⟩) (rateLimitWake now st.lastCall)
         lastCall := rateLimitWake now st.lastCall },
       ⟨4, 1, pagesFetched (env.listPages u.login)⟩,
       rateLimitWake now st.lastCall) := by
  simp [getGitHubStats, htok, hmiss, hA, hC, hL, rateLimit]

/-- A cache-miss invocation whose identity resolution fails: the error
is re-thrown and the cache is untouched. -/
lemma getGitHubStats_authError (env : Env) (st : GState) (tok : String) (now : Nat)
    (e : String)
    (htok : tok ≠ "")
    (hmiss : cacheGet st.cache (cacheKey tok) now = none)
    (hA : env.getAuthenticated = Except.error e) :
    getGitHubStats env (some tok) now st =
      (Except.error e,
       { cache := st.cache, lastCall := rateLimitWake now st.lastCall },
       ⟨1, 0, 0⟩, rateLimitWake now st.lastCall) := by
  simp [getGitHubStats, htok, hmiss, hA, rateLimit]

/-- A cache-miss invocation whose contributions query fails: the error
is re-thrown and the cache is untouched. -/
lemma getGitHubStats_contribError (env : Env) (st : GState) (tok : String) (now : Nat)
    (u : AuthUser) (e : String)
    (htok : tok ≠ "")
    (hmiss : cacheGet st.cache (cacheKey tok) now = none)
    (hA : env.getAuthenticated = Except.ok u)
    (hC : env.contribQuery u.login = Except.error e) :
    getGitHubStats env (some tok) now st =
      (Except.error e,
       { cache := st.cache, lastCall := rateLimitWake now st.lastCall },
       ⟨1, 1, 0⟩, rateLimitWake now st.lastCall) := by
  simp [getGitHubStats, htok, hmiss, hA, hC, rateLimit]

/-- A cache-miss invocation on which some listing page fails: the
error is re-thrown and the cache is untouched. -/
lemma getGitHubStats_pagesError (env : Env) (st : GState) (tok : String) (now : Nat)
    (u : AuthUser) (cd : ContribData) (e : String)
    (htok : tok ≠ "")
    (hmiss : cacheGet st.cache (cacheKey tok) now = none)
    (hA : env.getAuthenticated = Except.ok u)
    (hC : env.contribQuery u.login = Except.ok cd)
    (hL : getAllRepositories (env.listPages u.login) = Except.error e) :
    getGitHubStats env (some tok) now st =
      (Except.error e,
       { cache := st.cache, lastCall := rateLimitWake now st.lastCall },
       ⟨2, 1, pagesFetched (env.listPages u.login)⟩, rateLimitWake now st.lastCall) := by
  simp [getGitHubStats, htok, hmiss, hA, hC, hL, rateLimit]

/-! ### Claims -/

/-- C5: for every absent, null, or empty-string credential,
`getGitHubStats` fails immediately with the missing-credential error;
the state (cache included) is unchanged and zero remote calls are
issued.  (The untouched state also witnesses that no cache write
occurred; the cache probe in the source sits after the token check, so
no cache read occurs either.) -/
theorem missing_token_fails_immediately (env : Env) (st : GState) (now : Nat)
    (accessToken : Option String)
    (h : accessToken = none ∨ accessToken = some "") :
    getGitHubStats env accessToken now st =
      (Except.error "No access token provided", st, noCalls, now) := by
  rcases h with h | h <;> subst h <;> simp [getGitHubStats]

/-- Witness for C5: the absent credential at a concrete state. -/
theorem missing_token_fails_immediately_witness :
    getGitHubStats sampleEnv none 0 st0 =
      (Except.error "No access token provided", st0, noCalls, 0) :=
  missing_token_fails_immediately sampleEnv st0 0 none (Or.inl rfl)

/-- Helper: the throttle's resumption instant is at least
`minInterval` past the stored timestamp. -/
lemma rateLimitWake_ge (now lastCall : Nat) (h : lastCall ≤ now) :
    lastCall + minInterval ≤ rateLimitWake now lastCall := by
  simp only [rateLimitWake, minInterval]
  split <;> omega

/-- C7: each throttle call resumes no earlier than `minInterval`
(1000 ms) past the shared `lastCall` timestamp and unconditionally
updates that timestamp to its resumption instant.  Consequently, for
a second caller arriving at `a2` within 500 ms of the first's arrival
`t1`, whose throttle body runs no earlier than the first's resumption
(the timestamp-mediated sequential reading the claim prescribes:
`max a2` the first resumption instant), the second resumption — the
second call's remote-call start — is at least 1000 ms after the
first's. -/
theorem throttle_spacing (lastCall t1 a2 : Nat)
    (h1 : lastCall ≤ t1) (_ha : t1 ≤ a2) (_hwithin : a2 ≤ t1 + 500) :
    (rateLimit t1 lastCall).2 = rateLimitWake t1 lastCall
    ∧ lastCall + minInterval ≤ rateLimitWake t1 lastCall
    ∧ rateLimitWake t1 lastCall + minInterval ≤
        rateLimitWake (max a2 (rateLimitWake t1 lastCall)) (rateLimitWake t1 lastCall) :=
  ⟨rfl, rateLimitWake_ge t1 lastCall h1,
   rateLimitWake_ge _ _ (le_max_right a2 (rateLimitWake t1 lastCall))⟩

/-- Witness for C7: first call at 400 ms (timestamp 0), second
arrives at 700 ms. -/
theorem throttle_spacing_witness :
    (rateLimit 400 0).2 = rateLimitWake 400 0
    ∧ 0 + minInterval ≤ rateLimitWake 400 0
    ∧ rateLimitWake 400 0 + minInterval ≤
        rateLimitWake (max 700 (rateLimitWake 400 0)) (rateLimitWake 400 0) :=
  throttle_spacing 0 400 700 (by decide) (by decide) (by decide)

/-- C6: if the identity resolution, the contributions query, or the
pagination fails during a cache-miss run, `getGitHubStats` re-raises
that same error and leaves the cache unchanged — no entry is stored
and no partial report is returned. -/
theorem remote_failure_propagates (env : Env) (st : GState) (tok : String)
    (now : Nat) (e : String)
    (htok : tok ≠ "")
    (hmiss : cacheGet st.cache (cacheKey tok) now = none)
    (hfail : env.getAuthenticated = Except.error e
      ∨ (∃ u, env.getAuthenticated = Except.ok u
          ∧ env.contribQuery u.login = Except.error e)
      ∨ (∃ u cd, env.getAuthenticated = Except.ok u
          ∧ env.contribQuery u.login = Except.ok cd
          ∧ getAllRepositories (env.listPages u.login) = Except.error e)) :
    (getGitHubStats env (some tok) now st).1 = Except.error e
    ∧ ((getGitHubStats env (some tok) now st).2.1).cache = st.cache := by
  rcases hfail with hA | ⟨u, hA, hC⟩ | ⟨u, cd, hA, hC, hL⟩
  · rw [getGitHubStats_authError env st tok now e htok hmiss hA]
    exact ⟨rfl, rfl⟩
  · rw [getGitHubStats_contribError env st tok now u e htok hmiss hA hC]
    exact ⟨rfl, rfl⟩
  · rw [getGitHubStats_pagesError env st tok now u cd e htok hmiss hA hC hL]
    exact ⟨rfl, rfl⟩

/-- Witness for C6: a failing identity resolution at a concrete
state. -/
theorem remote_failure_propagates_witness :
    (getGitHubStats failEnv (some "t") 0 st0).1 = Except.error "boom"
    ∧ ((getGitHubStats failEnv (some "t") 0 st0).2.1).cache = st0.cache :=
  remote_failure_propagates failEnv st0 "t" 0 "boom" (by decide) rfl (Or.inl rfl)

/-- Counterexample for C8: on a concrete successful cache-miss run the
source issues four identity resolutions (`getAuthenticated` at lines
123, 212, 277 and 278), not three. -/
theorem identity_calls_not_three :
    ((getGitHubStats sampleEnv (some "t") 0 st0).2.2.1).identity = 4
    ∧ ((getGitHubStats sampleEnv (some "t") 0 st0).2.2.1).identity ≠ 3 := by
  rw [getGitHubStats_ok sampleEnv st0 "t" 0 sampleUser sampleContrib sampleNodes
      (by decide) rfl rfl rfl rfl]
  exact ⟨rfl, by decide⟩

/-- C8 (amended): during one successful cache-miss run, exactly four
separate identity-resolution calls are issued. -/
theorem identity_resolved_four_times (env : Env) (st : GState) (tok : String)
    (now : Nat) (u : AuthUser) (cd : ContribData) (nodes : List RepoNode)
    (htok : tok ≠ "")
    (hmiss : cacheGet st.cache (cacheKey tok) now = none)
    (hA : env.getAuthenticated = Except.ok u)
    (hC : env.contribQuery u.login = Except.ok cd)
    (hL : getAllRepositories (env.listPages u.login) = Except.ok nodes) :
    ((getGitHubStats env (some tok) now st).2.2.1).identity = 4 := by
  rw [getGitHubStats_ok env st tok now u cd nodes htok hmiss hA hC hL]

/-- Witness for C8 (amended): the four identity resolutions on the
concrete run. -/
theorem identity_resolved_four_times_witness :
    ((getGitHubStats sampleEnv (some "t") 0 st0).2.2.1).identity = 4 :=
  identity_resolved_four_times sampleEnv st0 "t" 0 sampleUser sampleContrib sampleNodes
    (by decide) rfl rfl rfl rfl

/-- C1: after a successful cache-miss run, a second call with the same
credential while the stored entry is still within the 5-minute TTL
returns the very same report and issues zero remote calls (no identity
resolution, no contributions query, no listing pages). -/
theorem second_call_hits_cache (env : Env) (st : GState) (tok : String)
    (now1 now2 : Nat) (u : AuthUser) (cd : ContribData) (nodes : List RepoNode)
    (htok : tok ≠ "")
    (hmiss : cacheGet st.cache (cacheKey tok) now1 = none)
    (hA : env.getAuthenticated = Except.ok u)
    (hC : env.contribQuery u.login = Except.ok cd)
    (hL : getAllRepositories (env.listPages u.login) = Except.ok nodes)
    (hfresh : now2 ≤ rateLimitWake now1 st.lastCall + cacheTTL) :
    (getGitHubStats env (some tok) now1 st).1 =
      Except.ok (assembleReport cd nodes ⟨u.login, u.avatar_url⟩)
    ∧ getGitHubStats env (some tok) now2 (getGitHubStats env (some tok) now1 st).2.1 =
      (Except.ok (assembleReport cd nodes ⟨u.login, u.avatar_url⟩),
       (getGitHubStats env (some tok) now1 st).2.1, noCalls, now2) := by
  have h1 := getGitHubStats_ok env st tok now1 u cd nodes htok hmiss hA hC hL
  rw [h1]
  refine ⟨rfl, ?_⟩
  have hhit : cacheGet
      (cacheSet st.cache (cacheKey tok)
        (assembleReport cd nodes ⟨u.login, u.avatar_url⟩) (rateLimitWake now1 st.lastCall))
      (cacheKey tok) now2
      = some (assembleReport cd nodes ⟨u.login, u.avatar_url⟩) := by
    simp only [cacheGet, cacheSet, List.find?_cons, beq_self_eq_true]
    rw [if_pos (by omega)]
  simp [getGitHubStats, htok, hhit]

/-- Witness for C1: populate at 0 ms, hit at 2000 ms. -/
theorem second_call_hits_cache_witness :
    (getGitHubStats sampleEnv (some "t") 0 st0).1 =
      Except.ok (assembleReport sampleContrib sampleNodes
        ⟨sampleUser.login, sampleUser.avatar_url⟩)
    ∧ getGitHubStats sampleEnv (some "t") 2000 (getGitHubStats sampleEnv (some "t") 0 st0).2.1 =
      (Except.ok (assembleReport sampleContrib sampleNodes
        ⟨sampleUser.login, sampleUser.avatar_url⟩),
       (getGitHubStats sampleEnv (some "t") 0 st0).2.1, noCalls, 2000) :=
  second_call_hits_cache sampleEnv st0 "t" 0 2000 sampleUser sampleContrib sampleNodes
    (by decide) rfl rfl rfl rfl (by decide)

/-- Helper: stable descending insertion permutes. -/
lemma insertDescBy_perm {α β : Type} [LinearOrder β] (key : α → β) (x : α)
    (l : List α) : (insertDescBy key x l).Perm (x :: l) := by
  induction l with
  | nil => simp [insertDescBy]
  | cons y ys ih =>
    simp only [insertDescBy]
    split
    · exact (ih.cons y).trans (List.Perm.swap x y ys)
    · exact List.Perm.refl _

/-- Helper: the stable descending sort permutes its input. -/
lemma sortDescBy_perm {α β : Type} [LinearOrder β] (key : α → β)
    (l : List α) : (sortDescBy key l).Perm l := by
  induction l with
  | nil => simp [sortDescBy]
  | cons x xs ih => exact (insertDescBy_perm key x _).trans (ih.cons x)

/-- C3: the report's `totalRepos` equals the number of repositories
the full pagination returned — every repository visible to the
identity, private ones included, with no visibility filter applied. -/
theorem totalRepos_counts_all_listed (env : Env) (st : GState) (tok : String)
    (now : Nat) (u : AuthUser) (cd : ContribData) (nodes : List RepoNode)
    (htok : tok ≠ "")
    (hmiss : cacheGet st.cache (cacheKey tok) now = none)
    (hA : env.getAuthenticated = Except.ok u)
    (hC : env.contribQuery u.login = Except.ok cd)
    (hL : getAllRepositories (env.listPages u.login) = Except.ok nodes) :
    (getGitHubStats env (some tok) now st).1 =
      Except.ok (assembleReport cd nodes ⟨u.login, u.avatar_url⟩)
    ∧ (assembleReport cd nodes ⟨u.login, u.avatar_url⟩).totalRepos = nodes.length := by
  refine ⟨by rw [getGitHubStats_ok env st tok now u cd nodes htok hmiss hA hC hL], ?_⟩
  simp [assembleReport]

/-- Witness for C3: three listed repositories, one of them private,
all counted. -/
theorem totalRepos_counts_all_listed_witness :
    ((getGitHubStats sampleEnv (some "t") 0 st0).1 =
      Except.ok (assembleReport sampleContrib sampleNodes
        ⟨sampleUser.login, sampleUser.avatar_url⟩)
    ∧ (assembleReport sampleContrib sampleNodes
        ⟨sampleUser.login, sampleUser.avatar_url⟩).totalRepos = sampleNodes.length)
    ∧ sampleNodes.length = 3 ∧ (sampleNodes.filter (fun r => r.isPrivate)).length = 1 :=
  ⟨totalRepos_counts_all_listed sampleEnv st0 "t" 0 sampleUser sampleContrib sampleNodes
      (by decide) rfl rfl rfl rfl,
   by decide, by decide⟩

/-- C4: the report's repository records are exactly the listed nodes
(up to the descending-commit reordering), and on each record both
`commits` and `contributions` equal the default-branch history total,
0 when that history is absent; such absence does not make the run
fail. -/
theorem repo_counts_from_default_branch (env : Env) (st : GState) (tok : String)
    (now : Nat) (u : AuthUser) (cd : ContribData) (nodes : List RepoNode)
    (htok : tok ≠ "")
    (hmiss : cacheGet st.cache (cacheKey tok) now = none)
    (hA : env.getAuthenticated = Except.ok u)
    (hC : env.contribQuery u.login = Except.ok cd)
    (hL : getAllRepositories (env.listPages u.login) = Except.ok nodes) :
    (getGitHubStats env (some tok) now st).1 =
      Except.ok (assembleReport cd nodes ⟨u.login, u.avatar_url⟩)
    ∧ ((assembleReport cd nodes ⟨u.login, u.avatar_url⟩).repos).Perm (nodes.map mkRepoStats)
    ∧ ∀ r ∈ nodes, (mkRepoStats r).commits = r.defaultBranchHistory.getD 0
        ∧ (mkRepoStats r).contributions = r.defaultBranchHistory.getD 0 := by
  refine ⟨by rw [getGitHubStats_ok env st tok now u cd nodes htok hmiss hA hC hL], ?_, ?_⟩
  · simpa [assembleReport] using
      sortDescBy_perm (fun r : RepoStats => r.commits) (nodes.map mkRepoStats)
  · intro r _
    exact ⟨rfl, rfl⟩

/-- Witness for C4: `sampleNodes` contains `repoNone`, which has no
default-branch history; the run still succeeds and its record carries
zero counts. -/
theorem repo_counts_from_default_branch_witness :
    ((getGitHubStats sampleEnv (some "t") 0 st0).1 =
      Except.ok (assembleReport sampleContrib sampleNodes
        ⟨sampleUser.login, sampleUser.avatar_url⟩)
    ∧ ((assembleReport sampleContrib sampleNodes
        ⟨sampleUser.login, sampleUser.avatar_url⟩).repos).Perm (sampleNodes.map mkRepoStats)
    ∧ ∀ r ∈ sampleNodes, (mkRepoStats r).commits = r.defaultBranchHistory.getD 0
        ∧ (mkRepoStats r).contributions = r.defaultBranchHistory.getD 0)
    ∧ repoNone ∈ sampleNodes ∧ repoNone.defaultBranchHistory = none
    ∧ (mkRepoStats repoNone).commits = 0 :=
  ⟨repo_counts_from_default_branch sampleEnv st0 "t" 0 sampleUser sampleContrib sampleNodes
      (by decide) rfl rfl rfl rfl,
   by decide, rfl, rfl⟩

/-- C9: the report's `contributionsByType` is exactly the three
entries Commits, Comments, Reviews, in that order, carrying the
report's `totalCommits`, `totalComments` and `totalReviews`. -/
theorem contributions_by_type_fixed (env : Env) (st : GState) (tok : String)
    (now : Nat) (u : AuthUser) (cd : ContribData) (nodes : List RepoNode)
    (htok : tok ≠ "")
    (hmiss : cacheGet st.cache (cacheKey tok) now = none)
    (hA : env.getAuthenticated = Except.ok u)
    (hC : env.contribQuery u.login = Except.ok cd)
    (hL : getAllRepositories (env.listPages u.login) = Except.ok nodes) :
    (getGitHubStats env (some tok) now st).1 =
      Except.ok (assembleReport cd nodes ⟨u.login, u.avatar_url⟩)
    ∧ (assembleReport cd nodes ⟨u.login, u.avatar_url⟩).contributionsByType =
      [ ⟨"Commits", (assembleReport cd nodes ⟨u.login, u.avatar_url⟩).totalCommits⟩
      , ⟨"Comments", (assembleReport cd nodes ⟨u.login, u.avatar_url⟩).totalComments⟩
      , ⟨"Reviews", (assembleReport cd nodes ⟨u.login, u.avatar_url⟩).totalReviews⟩ ] :=
  ⟨by rw [getGitHubStats_ok env st tok now u cd nodes htok hmiss hA hC hL], rfl⟩

/-- Witness for C9: the three fixed entries on the concrete run. -/
theorem contributions_by_type_fixed_witness :
    (getGitHubStats sampleEnv (some "t") 0 st0).1 =
      Except.ok (assembleReport sampleContrib sampleNodes
        ⟨sampleUser.login, sampleUser.avatar_url⟩)
    ∧ (assembleReport sampleContrib sampleNodes
        ⟨sampleUser.login, sampleUser.avatar_url⟩).contributionsByType =
      [ ⟨"Commits", (assembleReport sampleContrib sampleNodes
          ⟨sampleUser.login, sampleUser.avatar_url⟩).totalCommits⟩
      , ⟨"Comments", (assembleReport sampleContrib sampleNodes
          ⟨sampleUser.login, sampleUser.avatar_url⟩).totalComments⟩
      , ⟨"Reviews", (assembleReport sampleContrib sampleNodes
          ⟨sampleUser.login, sampleUser.avatar_url⟩).totalReviews⟩ ] :=
  contributions_by_type_fixed sampleEnv st0 "t" 0 sampleUser sampleContrib sampleNodes
    (by decide) rfl rfl rfl rfl

/-- Helper: every modelled date falls in one of the seven weekday
buckets. -/
lemma weekdayName_mem (n : Nat) : weekdayName n ∈ daysOrder := by
  have h : n % 7 = 0 ∨ n % 7 = 1 ∨ n % 7 = 2 ∨ n % 7 = 3 ∨ n % 7 = 4 ∨ n % 7 = 5
      ∨ n % 7 = 6 := by omega
  rcases h with h | h | h | h | h | h | h <;> simp [weekdayName, daysOrder, h]

/-- Helper: summing a pointwise-updated tally over a duplicate-free
list containing the updated key adds exactly the increment. -/
lemma sum_map_update (l : List String) (k : String) (m : String → Nat) (v : Nat)
    (hk : k ∈ l) (hnd : l.Nodup) :
    (l.map (Function.update m k (m k + v))).sum = (l.map m).sum + v := by
  induction l with
  | nil => cases hk
  | cons a as ih =>
    rcases List.mem_cons.mp hk with h | h
    · subst h
      have hnotin : k ∉ as := (List.nodup_cons.mp hnd).1
      have hmap : as.map (Function.update m k (m k + v)) = as.map m := by
        apply List.map_congr_left
        intro x hx
        have hxa : x ≠ k := fun hxa => hnotin (hxa ▸ hx)
        exact Function.update_noteq hxa _ m
      simp only [List.map_cons, List.sum_cons, Function.update_same, hmap]
      omega
    · have hna : a ≠ k := by
        rintro rfl
        exact (List.nodup_cons.mp hnd).1 h
      have ihh := ih h (List.nodup_cons.mp hnd).2
      simp only [List.map_cons, List.sum_cons, Function.update_noteq hna]
      omega

/-- Helper: one accumulation step adds the day's count to the weekday
tally — also when the day is skipped for having count zero. -/
lemma sum_daysOrder_addDay (m : String → Nat) (d : CalDay) :
    (daysOrder.map (addDay m d)).sum = (daysOrder.map m).sum + d.contributionCount := by
  unfold addDay
  split
  · exact sum_map_update daysOrder (weekdayName d.date) m d.contributionCount
      (weekdayName_mem d.date) (by decide)
  · have h0 : d.contributionCount = 0 := by omega
    simp [h0]

/-- Helper: folding the whole calendar preserves the total count. -/
lemma sum_daysOrder_foldl (days : List CalDay) (m : String → Nat) :
    (daysOrder.map (days.foldl addDay m)).sum
      = (daysOrder.map m).sum + (days.map (fun d => d.contributionCount)).sum := by
  induction days generalizing m with
  | nil => simp
  | cons d ds ih =>
    simp only [List.foldl_cons, List.map_cons, List.sum_cons]
    rw [ih (addDay m d), sum_daysOrder_addDay]
    omega

/-- Helper: the seven-bucket tally of a calendar carries exactly the
calendar's total contribution count. -/
lemma sum_dailyContributions (days : List CalDay) :
    (daysOrder.map (dailyContributions days)).sum
      = (days.map (fun d => d.contributionCount)).sum := by
  simpa using sum_daysOrder_foldl days (fun _ => 0)

/-- C10: the seven `contributionsByDay` counts sum to the calendar's
total contribution count — each positive-count day lands in exactly
one of the seven weekday buckets and zero-count days contribute
nothing, so bucketing neither loses nor double-counts. -/
theorem day_buckets_preserve_total (env : Env) (st : GState) (tok : String)
    (now : Nat) (u : AuthUser) (cd : ContribData) (nodes : List RepoNode)
    (htok : tok ≠ "")
    (hmiss : cacheGet st.cache (cacheKey tok) now = none)
    (hA : env.getAuthenticated = Except.ok u)
    (hC : env.contribQuery u.login = Except.ok cd)
    (hL : getAllRepositories (env.listPages u.login) = Except.ok nodes) :
    (getGitHubStats env (some tok) now st).1 =
      Except.ok (assembleReport cd nodes ⟨u.login, u.avatar_url⟩)
    ∧ ((assembleReport cd nodes ⟨u.login, u.avatar_url⟩).contributionsByDay.map
        (fun b => b.count)).sum
      = ((calendarDays cd).map (fun d => d.contributionCount)).sum := by
  refine ⟨by rw [getGitHubStats_ok env st tok now u cd nodes htok hmiss hA hC hL], ?_⟩
  have hmap : ((assembleReport cd nodes ⟨u.login, u.avatar_url⟩).contributionsByDay.map
      (fun b => b.count)) = daysOrder.map (dailyContributions (calendarDays cd)) := by
    simp [assembleReport, List.map_map]
  rw [hmap, sum_dailyContributions]

/-- Witness for C10: the concrete calendar has days with counts 5, 0
and 2; the bucket sums carry 7. -/
theorem day_buckets_preserve_total_witness :
    (getGitHubStats sampleEnv (some "t") 0 st0).1 =
      Except.ok (assembleReport sampleContrib sampleNodes
        ⟨sampleUser.login, sampleUser.avatar_url⟩)
    ∧ ((assembleReport sampleContrib sampleNodes
        ⟨sampleUser.login, sampleUser.avatar_url⟩).contributionsByDay.map
        (fun b => b.count)).sum
      = ((calendarDays sampleContrib).map (fun d => d.contributionCount)).sum :=
  day_buckets_preserve_total sampleEnv st0 "t" 0 sampleUser sampleContrib sampleNodes
    (by decide) rfl rfl rfl rfl

/-- Helper: when the per-language commit totals have a positive sum,
the percentages of `mkLanguages` sum to exactly 100. -/
lemma mkLanguages_sum (stats : List (String × Nat))
    (hpos : 0 < totalLanguageCommits stats) :
    ((mkLanguages stats).map (fun l => l.percentage)).sum = 100 := by
  have hT0 : ((totalLanguageCommits stats : Nat) : ℚ) ≠ 0 :=
    Nat.cast_ne_zero.mpr hpos.ne'
  have hperm := (sortDescBy_perm (fun l : LanguageShare => l.percentage)
    (stats.map (fun e =>
      { name := e.1
        percentage := (e.2 : ℚ) / (totalLanguageCommits stats : ℚ) * 100 }))).map
    (fun l : LanguageShare => l.percentage)
  rw [mkLanguages, hperm.sum_eq, List.map_map]
  have hcongr : stats.map ((fun l : LanguageShare => l.percentage) ∘ (fun e =>
      { name := e.1
        percentage := (e.2 : ℚ) / (totalLanguageCommits stats : ℚ) * 100 }))
      = stats.map (fun e =>
        ((e.2 : Nat) : ℚ) * (100 / (totalLanguageCommits stats : ℚ))) := by
    apply List.map_congr_left
    intro e _
    simp only [Function.comp]
    ring
  rw [hcongr, List.sum_map_mul_right]
  have hsum : (stats.map (fun e => ((e.2 : Nat) : ℚ))).sum
      = ((totalLanguageCommits stats : Nat) : ℚ) := by
    unfold totalLanguageCommits
    rw [Nat.cast_list_sum, List.map_map]
    rfl
  rw [hsum, mul_comm]
  exact div_mul_cancel₀ 100 hT0

/-- Helper: with no detected language anywhere, the accumulation
leaves the record untouched. -/
lemma foldl_lang_id (repos : List RepoStats) (acc : List (String × Nat))
    (h : ∀ r ∈ repos, r.language = none) :
    repos.foldl (fun st r => match r.language with
      | some l => bumpLang st l r.commits
      | none => st) acc = acc := by
  induction repos generalizing acc with
  | nil => rfl
  | cons r rs ih =>
    have hr := h r (by simp)
    simp only [List.foldl_cons, hr]
    exact ih acc (fun x hx => h x (by simp [hx]))

/-- Helper: with no detected language anywhere, `languageStats` is
empty. -/
lemma languageStats_eq_nil (repos : List RepoStats)
    (h : ∀ r ∈ repos, r.language = none) : languageStats repos = [] :=
  foldl_lang_id repos [] h

/-- Helper: repositories without a detected language are skipped by
the accumulation, so dropping them changes nothing. -/
lemma foldl_lang_filter (repos : List RepoStats) (acc : List (String × Nat)) :
    repos.foldl (fun st r => match r.language with
      | some l => bumpLang st l r.commits
      | none => st) acc
    = (repos.filter (fun r => r.language.isSome)).foldl (fun st r => match r.language with
      | some l => bumpLang st l r.commits
      | none => st) acc := by
  induction repos generalizing acc with
  | nil => rfl
  | cons r rs ih =>
    cases hl : r.language with
    | some l => simp [List.filter_cons, hl, ih]
    | none => simp [List.filter_cons, hl, ih]

/-- Helper: `languageStats` only sees repositories with a detected
language. -/
lemma languageStats_skips_none (repos : List RepoStats) :
    languageStats repos = languageStats (repos.filter (fun r => r.language.isSome)) :=
  foldl_lang_filter repos []

/-- C2 (amended): in a successful report, whenever the repositories
with a detected primary language have a positive summed commit count,
the language-share percentages sum to exactly 100; when no repository
has a detected language the list is empty; and repositories without a
detected language neither contribute to nor dilute any share (the
record is computed from the language-bearing repositories alone).
When the summed commit count is zero while some repository does have
a language, the source divides zero by zero (`NaN` percentages in
JavaScript, 0 here) — see the counterexample. -/
theorem language_shares_sum (env : Env) (st : GState) (tok : String)
    (now : Nat) (u : AuthUser) (cd : ContribData) (nodes : List RepoNode)
    (htok : tok ≠ "")
    (hmiss : cacheGet st.cache (cacheKey tok) now = none)
    (hA : env.getAuthenticated = Except.ok u)
    (hC : env.contribQuery u.login = Except.ok cd)
    (hL : getAllRepositories (env.listPages u.login) = Except.ok nodes) :
    (getGitHubStats env (some tok) now st).1 =
      Except.ok (assembleReport cd nodes ⟨u.login, u.avatar_url⟩)
    ∧ (0 < totalLanguageCommits (languageStats (nodes.map mkRepoStats)) →
        (((assembleReport cd nodes ⟨u.login, u.avatar_url⟩).languages.map
          (fun l => l.percentage)).sum = 100))
    ∧ ((∀ r ∈ nodes.map mkRepoStats, r.language = none) →
        (assembleReport cd nodes ⟨u.login, u.avatar_url⟩).languages = [])
    ∧ (assembleReport cd nodes ⟨u.login, u.avatar_url⟩).languages
        = mkLanguages (languageStats ((nodes.map mkRepoStats).filter
            (fun r => r.language.isSome))) := by
  have hlang : (assembleReport cd nodes ⟨u.login, u.avatar_url⟩).languages
      = mkLanguages (languageStats (nodes.map mkRepoStats)) := rfl
  refine ⟨by rw [getGitHubStats_ok env st tok now u cd nodes htok hmiss hA hC hL],
    ?_, ?_, ?_⟩
  · intro hpos
    rw [hlang]
    exact mkLanguages_sum _ hpos
  · intro hnone
    rw [hlang, languageStats_eq_nil _ hnone]
    rfl
  · rw [hlang, languageStats_skips_none]

/-- Witness for C2 (amended): the concrete run has languaged
repositories totalling 8 commits. -/
theorem language_shares_sum_witness :
    0 < totalLanguageCommits (languageStats (sampleNodes.map mkRepoStats))
    ∧ ((getGitHubStats sampleEnv (some "t") 0 st0).1 =
      Except.ok (assembleReport sampleContrib sampleNodes
        ⟨sampleUser.login, sampleUser.avatar_url⟩)
    ∧ (0 < totalLanguageCommits (languageStats (sampleNodes.map mkRepoStats)) →
        (((assembleReport sampleContrib sampleNodes
          ⟨sampleUser.login, sampleUser.avatar_url⟩).languages.map
          (fun l => l.percentage)).sum = 100))
    ∧ ((∀ r ∈ sampleNodes.map mkRepoStats, r.language = none) →
        (assembleReport sampleContrib sampleNodes
          ⟨sampleUser.login, sampleUser.avatar_url⟩).languages = [])
    ∧ (assembleReport sampleContrib sampleNodes
        ⟨sampleUser.login, sampleUser.avatar_url⟩).languages
        = mkLanguages (languageStats ((sampleNodes.map mkRepoStats).filter
            (fun r => r.language.isSome)))) :=
  ⟨by decide,
   language_shares_sum sampleEnv st0 "t" 0 sampleUser sampleContrib sampleNodes
     (by decide) rfl rfl rfl rfl⟩

/-- Counterexample for C2: a successful report whose single
repository has a detected primary language ("Go") but zero commits;
the language list is nonempty yet its percentages sum to 0, not 100
(the source computes `(0 / 0) * 100`, `NaN` in JavaScript). -/
theorem language_share_sum_fails_at_zero_commits :
    (getGitHubStats zeroCommitEnv (some "t") 0 st0).1 =
      Except.ok (assembleReport emptyContrib [repoLangOnly]
        ⟨sampleUser.login, sampleUser.avatar_url⟩)
    ∧ ((assembleReport emptyContrib [repoLangOnly]
        ⟨sampleUser.login, sampleUser.avatar_url⟩).repos.map (fun r => r.language))
      = [some "Go"]
    ∧ ((assembleReport emptyContrib [repoLangOnly]
        ⟨sampleUser.login, sampleUser.avatar_url⟩).languages.map
        (fun l => l.percentage)).sum ≠ 100 := by
  refine ⟨by rw [getGitHubStats_ok zeroCommitEnv st0 "t" 0 sampleUser emptyContrib
    [repoLangOnly] (by decide) rfl rfl rfl rfl], by decide, ?_⟩
  have hval : ((assembleReport emptyContrib [repoLangOnly]
      ⟨sampleUser.login, sampleUser.avatar_url⟩).languages.map
      (fun l => l.percentage)).sum = 0 := by
    show ((mkLanguages (languageStats ([repoLangOnly].map mkRepoStats))).map
      (fun l => l.percentage)).sum = 0
    norm_num [mkLanguages, languageStats, totalLanguageCommits, bumpLang,
      sortDescBy, insertDescBy, mkRepoStats, repoLangOnly, List.foldl]
  rw [hval]
  norm_num

end GW
